import Mathlib

/-!
Shallow embedding of the `opentelemetry-datadog-cloudflare` crate
(`src/lib.rs`, `src/exporter/mod.rs`, `src/exporter/model/mod.rs`) and proofs
about its span-buffering, trace-grouping, payload-encoding and header
propagation behaviour.

Machine integers are modelled as `Nat`/`Int` with explicit bounds where
overflow matters.  Strings, lists and association lists model Rust `String`,
`Vec` and `BTreeMap`.  Fallible operations return `Option`.
-/

/-! ## Rust decimal integer parsing (`str::parse::<u64>` / `str::parse::<i32>`) -/

/-- Parse a non-empty list of ASCII digits as a natural number; `none` when the
list is empty or contains a non-digit.  Helper for the Rust `FromStr` integer
grammar `['+']? digit+` (signed variant also allows `'-'`). -/
def parseDecimalDigits (cs : List Char) : Option Nat :=
  if cs.isEmpty then none
  else if cs.all (fun c => c.isDigit) then
    some (cs.foldl (fun acc c => acc * 10 + (c.toNat - 48)) 0)
  else none

/-- Model of Rust `str::parse::<u64>`: optional leading `'+'`, then decimal
digits; fails on empty input, any other character, or overflow past
`2 ^ 64 - 1`. -/
def rustParseU64 (s : String) : Option Nat :=
  let cs := match s.data with
    | '+' :: rest => rest
    | cs => cs
  match parseDecimalDigits cs with
  | some n => if n < 2 ^ 64 then some n else none
  | none => none

/-- Model of Rust `str::parse::<i32>`: optional sign, then decimal digits;
fails on empty input, any other character, or a value outside
`[-2 ^ 31, 2 ^ 31 - 1]`. -/
def rustParseI32 (s : String) : Option Int :=
  match s.data with
  | '+' :: rest =>
    (parseDecimalDigits rest).bind fun n =>
      if n ≤ 2 ^ 31 - 1 then some (n : Int) else none
  | '-' :: rest =>
    (parseDecimalDigits rest).bind fun n =>
      if n ≤ 2 ^ 31 then some (-(n : Int)) else none
  | cs =>
    (parseDecimalDigits cs).bind fun n =>
      if n ≤ 2 ^ 31 - 1 then some (n : Int) else none

/-! ## `u128_to_u64s` (src/exporter/mod.rs lines 424-436)

The Rust function takes the native-endian bytes of a `u128`, splits them into
two 8-byte halves, swaps the halves on a little-endian host, and reassembles
each half with native-endian `u64::from_ne_bytes`.  We model the byte level
faithfully and keep the host endianness as an explicit parameter. -/

/-- `k` least-significant base-256 digits of `n`, least significant first
(the little-endian byte representation). -/
def toLEBytes : Nat → Nat → List Nat
  | 0, _ => []
  | k + 1, n => n % 256 :: toLEBytes k (n / 256)

/-- Value of a little-endian byte list. -/
def fromLEBytes : List Nat → Nat
  | [] => 0
  | b :: bs => b + 256 * fromLEBytes bs

/-- Model of `u128::to_ne_bytes`: little-endian byte order on a little-endian
host, big-endian otherwise. -/
def u128_to_ne_bytes (littleEndian : Bool) (n : Nat) : List Nat :=
  if littleEndian then toLEBytes 16 n else (toLEBytes 16 n).reverse

/-- Model of `u64::from_ne_bytes` on an 8-byte slice. -/
def u64_from_ne_bytes (littleEndian : Bool) (b : List Nat) : Nat :=
  if littleEndian then fromLEBytes b else fromLEBytes b.reverse

/-- Model of `u128_to_u64s` (src/exporter/mod.rs): split the native-endian
bytes at index 8, swap the two halves on a little-endian host, and read each
half back with native-endian semantics.  Returns the pair
`(high half, low half)` exactly as the source returns `[u64; 2]`. -/
def u128_to_u64s (littleEndian : Bool) (n : Nat) : Nat × Nat :=
  let bytes := u128_to_ne_bytes littleEndian n
  let high := bytes.take 8
  let low := bytes.drop 8
  let pair := if littleEndian then (low, high) else (high, low)
  (u64_from_ne_bytes littleEndian pair.1, u64_from_ne_bytes littleEndian pair.2)

/-! ## Propagator data model (src/lib.rs `mod propagator`)

The `opentelemetry` SDK types used by the propagator are modelled by their
values: a `TraceId` is its `u128` value, a `SpanId` its `u64` value and
`TraceFlags` its `u8` value.  Both invalid sentinels are `0`. -/

def DATADOG_TRACE_ID_HEADER : String := "x-datadog-trace-id"

def DATADOG_PARENT_ID_HEADER : String := "x-datadog-parent-id"

def DATADOG_SAMPLING_PRIORITY_HEADER : String := "x-datadog-sampling-priority"

/-- `TraceFlags::SAMPLED` from the opentelemetry SDK. -/
def TRACE_FLAG_SAMPLED : Nat := 1

/-- `TRACE_FLAG_DEFERRED = TraceFlags::new(0x02)` (src/lib.rs line 63). -/
def TRACE_FLAG_DEFERRED : Nat := 2

/-- Model of `opentelemetry::trace::SpanContext` as used by the propagator:
trace id (`u128` value), span id (`u64` value), trace flags (`u8` value) and
the remote marker.  `TraceState` is always `TraceState::default()` in the
source and is omitted. -/
structure SpanContext where
  traceId : Nat
  spanId : Nat
  traceFlags : Nat
  isRemote : Bool
deriving DecidableEq

/-- `SpanContext::is_valid`: both identifiers differ from their invalid
(zero) sentinels. -/
def SpanContext.is_valid (c : SpanContext) : Bool :=
  c.traceId != 0 && c.spanId != 0

/-- `TraceFlags::is_sampled` on the context's flags. -/
def SpanContext.is_sampled (c : SpanContext) : Bool :=
  c.traceFlags &&& TRACE_FLAG_SAMPLED != 0

/-- `SpanContext::empty_context()`: invalid ids, default flags, not remote. -/
def empty_context : SpanContext := ⟨0, 0, 0, false⟩

/-- `SamplingPriority` (src/lib.rs lines 73-78). -/
inductive SamplingPriority where
  | userReject
  | autoReject
  | autoKeep
  | userKeep
deriving DecidableEq

/-- The explicit discriminants of `SamplingPriority` (`as i32`). -/
def SamplingPriority.toI32 : SamplingPriority → Int
  | .userReject => -1
  | .autoReject => 0
  | .autoKeep => 1
  | .userKeep => 2

/-- An `Extractor`/`Injector` header carrier: an association list of header
name/value pairs; `get` returns the first binding. -/
def getHeader (h : List (String × String)) (k : String) : Option String :=
  (h.find? (fun kv => kv.1 == k)).map (·.2)

/-- `DatadogPropagator::extract_trace_id`: parse as `u64`, then
`TraceId::from(u128::from(id).to_be_bytes())`, i.e. the wide trace id is the
parsed value zero-extended to 128 bits. -/
def extract_trace_id (s : String) : Option Nat :=
  rustParseU64 s

/-- `DatadogPropagator::extract_span_id`: parse as `u64`;
`SpanId::from(id.to_be_bytes())` keeps the value. -/
def extract_span_id (s : String) : Option Nat :=
  rustParseU64 s

/-- `DatadogPropagator::extract_sampling_priority` (src/lib.rs lines 129-143):
parse as `i32` and accept exactly `-1`, `0`, `1`, `2`. -/
def extract_sampling_priority (s : String) : Option SamplingPriority :=
  match rustParseI32 s with
  | none => none
  | some i =>
    if i = -1 then some .userReject
    else if i = 0 then some .autoReject
    else if i = 1 then some .autoKeep
    else if i = 2 then some .userKeep
    else none

/-- The `match sampling_priority` arm of `extract_span_context`
(src/lib.rs lines 158-165): rejects give the default flags, keeps give
`SAMPLED`, a failed extraction gives `TRACE_FLAG_DEFERRED`. -/
def sampledFlags : Option SamplingPriority → Nat
  | some .userReject | some .autoReject => 0
  | some .autoKeep | some .userKeep => TRACE_FLAG_SAMPLED
  | none => TRACE_FLAG_DEFERRED

/-- `DatadogPropagator::extract_span_context` (src/lib.rs lines 145-176).
A missing header reads as `""` (`unwrap_or("")`); a failed trace-id parse
aborts the extraction, a failed parent-id parse defaults to
`SpanId::INVALID`, and the sampling priority decides the flags. -/
def extract_span_context (h : List (String × String)) : Option SpanContext :=
  match extract_trace_id ((getHeader h DATADOG_TRACE_ID_HEADER).getD "") with
  | none => none
  | some tid =>
    let sid := (extract_span_id ((getHeader h DATADOG_PARENT_ID_HEADER).getD "")).getD 0
    let flags := sampledFlags
      (extract_sampling_priority ((getHeader h DATADOG_SAMPLING_PRIORITY_HEADER).getD ""))
    some ⟨tid, sid, flags, true⟩

/-- `DatadogPropagator::extract_with_context`: a failed extraction falls back
to the empty context. -/
def extract_with_context (h : List (String × String)) : SpanContext :=
  (extract_span_context h).getD empty_context

/-- `DatadogPropagator::inject_context` (src/lib.rs lines 180-204), returning
the list of header name/value pairs passed to `Injector::set`, in call order.
Writes nothing for an invalid context; writes the first return value (`t0`,
the high half) of `u128_to_u64s` as the trace-id header; writes the sampling
priority only when the deferred flag is clear.  The source runs on a
little-endian (wasm32) host, so the endianness flag is `true` here; the
helper's result is endianness-independent (see `u128_to_u64s_eq`). -/
def inject_context (c : SpanContext) : List (String × String) :=
  if c.is_valid then
    let t0 := (u128_to_u64s true c.traceId).1
    let base := [(DATADOG_TRACE_ID_HEADER, toString t0),
                 (DATADOG_PARENT_ID_HEADER, toString c.spanId)]
    if c.traceFlags &&& TRACE_FLAG_DEFERRED ≠ TRACE_FLAG_DEFERRED then
      base ++ [(DATADOG_SAMPLING_PRIORITY_HEADER,
        toString (if c.is_sampled then SamplingPriority.autoKeep.toI32
                  else SamplingPriority.autoReject.toI32))]
    else base
  else []

/-! ## Exporter data model (src/exporter/mod.rs) -/

/-- `opentelemetry::trace::StatusCode` as matched by the exporter. -/
inductive StatusCode where
  | unset
  | ok
  | error
deriving DecidableEq

/-- The fields of `opentelemetry::sdk::export::trace::SpanData` read by the
exporter: the span context's wide trace id (`u128` value) and span id
(`u64` value), the parent span id, the span name, the attribute map
(key/value pairs with distinct keys), the status code and the start/end
times as nanoseconds since the Unix epoch. -/
structure SpanData where
  traceId : Nat
  spanId : Nat
  parentSpanId : Nat
  name : String
  attributes : List (String × String)
  statusCode : StatusCode
  startNanos : Nat
  endNanos : Nat
deriving DecidableEq

/-- `dd_proto::Span` (wire schema, spec section 6; generated by prost from
`proto/dd_trace.proto`). -/
structure DDSpan where
  service : String
  name : String
  resource : String
  type : String
  trace_id : Nat
  span_id : Nat
  parent_id : Nat
  error : Int
  start : Int
  duration : Int
  meta : List (String × String)
  metrics : List (String × String)
  meta_struct : List (String × List Nat)
deriving DecidableEq

/-- `dd_proto::TraceChunk`. -/
structure TraceChunk where
  priority : Int
  origin : String
  spans : List DDSpan
  tags : List (String × String)
  dropped_trace : Bool
deriving DecidableEq

/-- `dd_proto::TracerPayload`. -/
structure TracerPayload where
  container_id : String
  language_name : String
  language_version : String
  tracer_version : String
  runtime_id : String
  chunks : List TraceChunk
  app_version : String
deriving DecidableEq

/-- `dd_proto::TracePayload`.  The legacy `traces`/`transactions` fields are
always set to `vec![]` by the source and carried as unit lists; the `f64`
throughput hints hold only the constant `1000f64` and are carried as `Nat`. -/
structure TracePayload where
  host_name : String
  env : String
  traces : List Unit
  transactions : List Unit
  tracer_payloads : List TracerPayload
  tags : List (String × String)
  agent_version : String
  target_tps : Nat
  error_tps : Nat
deriving DecidableEq

/-- The configuration fields of `DatadogExporter` (the `HttpClient` is the
abstract transport and is not part of the state). -/
structure DatadogExporter where
  request_url : String
  service_name : String
  env : String
  tags : List (String × String)
  host_name : String
  key : String
  runtime_id : String
  container_id : String
  app_version : String
  flush_size : Nat
deriving DecidableEq

/-- `env!("CARGO_PKG_VERSION")`: a build-time constant string; its concrete
value is irrelevant to every claim. -/
def VERSION : String := "CARGO_PKG_VERSION"

/-- One step of `Itertools::into_group_map_by` keyed by
`span_data.span_context.trace_id()`: append the span to the bucket holding
its trace id, or open a new bucket.  The hash map's bucket-per-key structure
is modelled as an association list in first-occurrence order (the map's
iteration order is unspecified; theorems quantify over reorderings). -/
def addToGroups : List (Nat × List SpanData) → SpanData → List (Nat × List SpanData)
  | [], s => [(s.traceId, [s])]
  | (k, l) :: rest, s =>
    if s.traceId = k then (k, l ++ [s]) :: rest
    else (k, l) :: addToGroups rest s

/-- `group_into_traces` (src/exporter/mod.rs lines 414-421): partition a batch
into per-trace groups keyed by the wide trace id. -/
def group_into_traces (spans : List SpanData) : List (List SpanData) :=
  (spans.foldl addToGroups []).map (·.2)

/-- `BTreeMap::insert` on an association list sorted by key: replace an equal
key, otherwise keep sorted order. -/
def btreeInsert (m : List (String × String)) (k v : String) : List (String × String) :=
  match m with
  | [] => [(k, v)]
  | (k', v') :: rest =>
    if k < k' then (k, v) :: (k', v') :: rest
    else if k = k' then (k, v) :: rest
    else (k', v') :: btreeInsert rest k v

/-- `collect::<BTreeMap<String, String>>()` over an attribute iterator. -/
def collectBTreeMap (attrs : List (String × String)) : List (String × String) :=
  attrs.foldl (fun m kv => btreeInsert m kv.1 kv.2) []

/-- Truncating `as i64` cast of an unsigned nanosecond count (`u128`). -/
def i64_trunc (n : Nat) : Int :=
  let m : Nat := n % 2 ^ 64
  if m < 2 ^ 63 then (m : Int) else (m : Int) - 2 ^ 64

/-- `trace_into_dd_tracer_payload` (src/exporter/mod.rs lines 438-489):
convert one `SpanData` to a wire span.  The wire trace id is `t0`, the high
half returned by `u128_to_u64s`; the low half `_t1` is discarded.  The
resource comes from the `code.namespace` attribute, defaulting to empty;
the status maps to the binary error flag; attributes collect into the
sorted `meta` map. -/
def trace_into_dd_tracer_payload (exporter : DatadogExporter) (trace : SpanData) : DDSpan :=
  { service := exporter.service_name
    name := trace.name
    resource := ((trace.attributes.find? (fun kv => kv.1 == "code.namespace")).map (·.2)).getD ""
    type := "http"
    trace_id := (u128_to_u64s true trace.traceId).1
    span_id := trace.spanId
    parent_id := trace.parentSpanId
    error := match trace.statusCode with
      | .unset | .ok => 0
      | .error => 1
    start := i64_trunc trace.startNanos
    duration := i64_trunc (trace.endNanos - trace.startNanos)
    meta := collectBTreeMap trace.attributes
    metrics := []
    meta_struct := [] }

/-- `trace_into_chunk` (src/exporter/mod.rs lines 491-503). -/
def trace_into_chunk (spans : List DDSpan) : TraceChunk :=
  { priority := 100
    origin := "lambda"
    spans := spans
    tags := []
    dropped_trace := false }

/-- `DatadogExporter::trace_into_tracer` (src/exporter/mod.rs lines 506-516). -/
def DatadogExporter.trace_into_tracer (e : DatadogExporter)
    (chunks : List TraceChunk) : TracerPayload :=
  { container_id := e.container_id
    language_name := "rust"
    language_version := ""
    tracer_version := VERSION
    runtime_id := e.runtime_id
    chunks := chunks
    app_version := e.app_version }

/-- `DatadogExporter::trace_build` (src/exporter/mod.rs lines 518-530). -/
def DatadogExporter.trace_build (e : DatadogExporter)
    (tracer : List TracerPayload) : TracePayload :=
  { host_name := e.host_name
    env := e.env
    traces := []
    transactions := []
    tracer_payloads := tracer
    tags := e.tags
    agent_version := VERSION
    target_tps := 1000
    error_tps := 1000 }

/-! ## Wire serialization, request building and the span processor -/

/-- Modelled from the spec: the prost-generated `Message::encode_to_vec`
serializer for the section-6 wire schema is generated code (from
`proto/dd_trace.proto`) that is not part of the sources.  Per the spec it is
a deterministic function of the message value that emits every field in
schema order and every map field in the map's stored (sorted) entry order.
Strings are emitted as a length followed by their character codes. -/
def encStr (s : String) : List Nat :=
  s.length :: s.data.map Char.toNat

/-- Modelled from the spec: deterministic encoding of an `i64`/`i32` field
value (offset binary, fixed width). -/
def encInt (i : Int) : List Nat :=
  [(i + 2 ^ 63).toNat]

/-- Modelled from the spec: a `map<string,string>` field, emitted as the
entry count followed by the entries in the map's stored order. -/
def encStrMap (m : List (String × String)) : List Nat :=
  m.length :: (m.map (fun kv => encStr kv.1 ++ encStr kv.2)).flatten

/-- Modelled from the spec: a `map<string,bytes>` field. -/
def encBytesMap (m : List (String × List Nat)) : List Nat :=
  m.length :: (m.map (fun kv => encStr kv.1 ++ kv.2.length :: kv.2)).flatten

/-- Modelled from the spec: serialization of one wire `Span`, all fields in
schema order. -/
def encodeSpan (s : DDSpan) : List Nat :=
  encStr s.service ++ encStr s.name ++ encStr s.resource ++ encStr s.type ++
    [s.trace_id, s.span_id, s.parent_id] ++ encInt s.error ++ encInt s.start ++
    encInt s.duration ++ encStrMap s.meta ++ encStrMap s.metrics ++
    encBytesMap s.meta_struct

/-- Modelled from the spec: serialization of one `TraceChunk`. -/
def encodeChunk (c : TraceChunk) : List Nat :=
  encInt c.priority ++ encStr c.origin ++
    c.spans.length :: (c.spans.map encodeSpan).flatten ++ encStrMap c.tags ++
    [if c.dropped_trace then 1 else 0]

/-- Modelled from the spec: serialization of one `TracerPayload`. -/
def encodeTracerPayload (t : TracerPayload) : List Nat :=
  encStr t.container_id ++ encStr t.language_name ++ encStr t.language_version ++
    encStr t.tracer_version ++ encStr t.runtime_id ++
    t.chunks.length :: (t.chunks.map encodeChunk).flatten ++ encStr t.app_version

/-- Modelled from the spec: `TracePayload::encode_to_vec`, the serialized
bytes of the top-level payload. -/
def encode_to_vec (p : TracePayload) : List Nat :=
  encStr p.host_name ++ encStr p.env ++ [p.traces.length, p.transactions.length] ++
    p.tracer_payloads.length :: (p.tracer_payloads.map encodeTracerPayload).flatten ++
    encStrMap p.tags ++ encStr p.agent_version ++ [p.target_tps, p.error_tps]

/-- The outbound HTTP request built by `DatadogExporter::export`. -/
structure Request where
  method : String
  uri : String
  headers : List (String × String)
  body : List Nat
deriving DecidableEq

/-- The chunk list built by `DatadogExporter::export` from an already-ordered
group list: each group maps through `trace_into_dd_tracer_payload` and
`trace_into_chunk`. -/
def exportChunks (e : DatadogExporter) (groups : List (List SpanData)) : List TraceChunk :=
  groups.map (fun spans => trace_into_chunk (spans.map (trace_into_dd_tracer_payload e)))

/-- The `TracePayload` built by `DatadogExporter::export` from an ordered
group list: one `TracerPayload` wrapping all chunks. -/
def exportPayload (e : DatadogExporter) (groups : List (List SpanData)) : TracePayload :=
  e.trace_build [e.trace_into_tracer (exportChunks e groups)]

/-- `DatadogExporter::export` (src/exporter/mod.rs lines 537-571), returning
the list of HTTP requests handed to `client.send` (always exactly one; there
is no early return for an empty batch).  `order` models the iteration order
of the `HashMap` built by `into_group_map_by`, which is not determined by
the input; an admissible `order` is any permutation of the group list. -/
def exportSpans (e : DatadogExporter)
    (order : List (List SpanData) → List (List SpanData))
    (batch : List SpanData) : List Request :=
  let groups := order (group_into_traces batch)
  [{ method := "POST"
     uri := e.request_url
     headers := [("content-type", "application/x-protobuf"),
                 ("X-Datadog-Reported-Languages", "rust"),
                 ("DD-Api-Key", e.key)]
     body := encode_to_vec (exportPayload e groups) }]

/-- Outcome of one `WASMWorkerSpanProcessor` flush call:
`exported` is the batch handed to `exporter.export` (`none` when the buffer
lock could not be acquired and export was never invoked), `buffer` is the
buffer after the call, `logged` the messages passed to
`global::handle_error`, and `error` the early-return `TraceError`. -/
structure FlushResult where
  exported : Option (List SpanData)
  buffer : List SpanData
  logged : List String
  error : Option String
deriving DecidableEq

/-- `SpanProcessor::on_end` (src/exporter/mod.rs lines 188-198): push the
span under the write lock; when the lock is poisoned, log the error and drop
the span, leaving the buffer unchanged.  `lockOk` models whether
`self.spans.write()` succeeds. -/
def on_end (lockOk : Bool) (buf : List SpanData) (span : SpanData) :
    List SpanData × List String :=
  if lockOk then (buf ++ [span], []) else (buf, ["PoisonError"])

/-- `SpanProcessExt::force_flush` (src/exporter/mod.rs lines 156-181): under
the write lock, drain the `min(len, flush_size)` oldest spans
(`drain(0..export_size)`, FIFO) and hand them to `exporter.export`; when the
lock is poisoned, log the error and return a `TraceError` without draining
or exporting anything. -/
def force_flush (lockOk : Bool) (flush_size : Nat) (buf : List SpanData) : FlushResult :=
  if lockOk then
    let export_size := if buf.length > flush_size then flush_size else buf.length
    { exported := some (buf.take export_size)
      buffer := buf.drop export_size
      logged := []
      error := none }
  else
    { exported := none
      buffer := buf
      logged := ["PoisonError"]
      error := some "unable to obtain lock to flush" }

/-! ## Concrete fixtures shared by witnesses and counterexamples -/

/-- A concrete exporter configuration. -/
def cfg0 : DatadogExporter :=
  { request_url := "https://trace.agent.datadoghq.eu/api/v0.2/traces"
    service_name := "svc"
    env := "prod"
    tags := []
    host_name := "host"
    key := "k"
    runtime_id := "r"
    container_id := "c"
    app_version := "1"
    flush_size := 500 }

/-- A concrete span record with a given wide trace id. -/
def mkSpan (t : Nat) : SpanData :=
  { traceId := t
    spanId := 1
    parentSpanId := 0
    name := "op"
    attributes := []
    statusCode := .unset
    startNanos := 0
    endNanos := 0 }

/-! ## Byte-split arithmetic -/

theorem toLEBytes_length (k : Nat) : ∀ n, (toLEBytes k n).length = k := by
  induction k with
  | zero => intro n; rfl
  | succ k ih => intro n; simp [toLEBytes, ih]

theorem fromLEBytes_toLEBytes (k : Nat) : ∀ n, fromLEBytes (toLEBytes k n) = n % 256 ^ k := by
  induction k with
  | zero => intro n; simp [toLEBytes, fromLEBytes, Nat.mod_one]
  | succ k ih =>
    intro n
    rw [toLEBytes, fromLEBytes, ih, pow_succ', Nat.mod_mul]

theorem toLEBytes_add (j k : Nat) : ∀ n, toLEBytes (j + k) n = toLEBytes j n ++ toLEBytes k (n / 256 ^ j) := by
  induction j with
  | zero => intro n; simp [toLEBytes]
  | succ j ih =>
    intro n
    have hsplit : j + 1 + k = (j + k) + 1 := by omega
    rw [hsplit, toLEBytes, toLEBytes, ih, List.cons_append]
    have : n / 256 / 256 ^ j = n / 256 ^ (j + 1) := by
      rw [Nat.div_div_eq_div_mul, pow_succ']
    rw [this]

theorem fromLE8_toLE8 (m : Nat) : fromLEBytes (toLEBytes 8 m) = m % 2 ^ 64 := by
  have h := fromLEBytes_toLEBytes 8 m
  rwa [show (256 : Nat) ^ 8 = 2 ^ 64 by norm_num] at h

theorem toLEBytes16_split (n : Nat) :
    toLEBytes 16 n = toLEBytes 8 n ++ toLEBytes 8 (n / 2 ^ 64) := by
  have h := toLEBytes_add 8 8 n
  rwa [show (256 : Nat) ^ 8 = 2 ^ 64 by norm_num] at h

/-- The byte-level `u128_to_u64s` equals the arithmetic split into the
high-order and low-order 64-bit halves, for either host endianness. -/
theorem u128_to_u64s_eq (e : Bool) (n : Nat) :
    u128_to_u64s e n = (n / 2 ^ 64 % 2 ^ 64, n % 2 ^ 64) := by
  have hlo : (toLEBytes 8 n).length = 8 := toLEBytes_length 8 n
  have hhi : (toLEBytes 8 (n / 2 ^ 64)).length = 8 := toLEBytes_length 8 (n / 2 ^ 64)
  cases e with
  | true =>
    simp only [u128_to_u64s, u128_to_ne_bytes, u64_from_ne_bytes, if_true,
      toLEBytes16_split n]
    rw [List.take_left' hlo, List.drop_left' hlo, fromLE8_toLE8, fromLE8_toLE8]
  | false =>
    simp only [u128_to_u64s, u128_to_ne_bytes, u64_from_ne_bytes,
      Bool.false_eq_true, if_false, toLEBytes16_split n, List.reverse_append]
    rw [List.take_left' (by simpa using hhi), List.drop_left' (by simpa using hhi),
      List.reverse_reverse, List.reverse_reverse, fromLE8_toLE8, fromLE8_toLE8]

/-! ## Claim C4 -/

/-- Claim C4: for every 128-bit value `n`, `u128_to_u64s n` returns the pair
`(n / 2 ^ 64, n % 2 ^ 64)` — high-order half first, low-order half second —
with big-endian interchange semantics regardless of host endianness, and the
narrowed 64-bit trace identifier written into a wire span is the high-order
half, the low-order half being discarded. -/
theorem c4_identifier_narrowing (e : Bool) (exporter : DatadogExporter)
    (sp : SpanData) (h : sp.traceId < 2 ^ 128) :
    u128_to_u64s e sp.traceId = (sp.traceId / 2 ^ 64, sp.traceId % 2 ^ 64) ∧
    (trace_into_dd_tracer_payload exporter sp).trace_id = sp.traceId / 2 ^ 64 := by
  have hdiv : sp.traceId / 2 ^ 64 < 2 ^ 64 :=
    Nat.div_lt_of_lt_mul (by rw [show (2 : Nat) ^ 64 * 2 ^ 64 = 2 ^ 128 by norm_num]; exact h)
  have hmod : sp.traceId / 2 ^ 64 % 2 ^ 64 = sp.traceId / 2 ^ 64 := Nat.mod_eq_of_lt hdiv
  refine ⟨?_, ?_⟩
  · rw [u128_to_u64s_eq, hmod]
  · show (u128_to_u64s true sp.traceId).1 = sp.traceId / 2 ^ 64
    rw [u128_to_u64s_eq]
    exact hmod

theorem c4_identifier_narrowing_witness :
    ((mkSpan (5 * 2 ^ 64 + 7)).traceId < 2 ^ 128) ∧
    (u128_to_u64s false (mkSpan (5 * 2 ^ 64 + 7)).traceId
        = ((mkSpan (5 * 2 ^ 64 + 7)).traceId / 2 ^ 64,
           (mkSpan (5 * 2 ^ 64 + 7)).traceId % 2 ^ 64) ∧
      (trace_into_dd_tracer_payload cfg0 (mkSpan (5 * 2 ^ 64 + 7))).trace_id
        = (mkSpan (5 * 2 ^ 64 + 7)).traceId / 2 ^ 64) :=
  ⟨by decide, c4_identifier_narrowing false cfg0 _ (by decide)⟩

/-! ## Claim C3 -/

/-- Claim C3 (code bug): extracting the three headers does give trace id 1234,
span id 12, sampled, deferred clear; but injecting that valid span context
writes `x-datadog-trace-id = "0"` — the high 64-bit half of the zero-extended
wide id — not `"1234"`, so the round trip claimed here (and expected by the
crate's own `test_inject`, src/lib.rs lines 245-247) fails. -/
theorem c3_round_trip_bug :
    extract_with_context
        [("x-datadog-trace-id", "1234"), ("x-datadog-parent-id", "12"),
         ("x-datadog-sampling-priority", "1")]
      = ⟨1234, 12, TRACE_FLAG_SAMPLED, true⟩ ∧
    (⟨1234, 12, TRACE_FLAG_SAMPLED, true⟩ : SpanContext).is_valid = true ∧
    inject_context ⟨1234, 12, TRACE_FLAG_SAMPLED, true⟩
      = [("x-datadog-trace-id", "0"), ("x-datadog-parent-id", "12"),
         ("x-datadog-sampling-priority", "1")] ∧
    ("0" : String) ≠ "1234" := by decide

/-! ## Claim C5 -/

/-- Claim C5: when the trace-id header is absent or unparseable (either way
the extractor reads `""` or a non-`u64` string), extraction yields the empty
context whatever the other headers hold; and injecting an invalid context
writes no headers at all. -/
theorem c5_no_partial_context (h : List (String × String)) (c : SpanContext)
    (htid : rustParseU64 ((getHeader h DATADOG_TRACE_ID_HEADER).getD "") = none)
    (hc : c.is_valid = false) :
    extract_with_context h = empty_context ∧ inject_context c = [] := by
  constructor
  · simp [extract_with_context, extract_span_context, extract_trace_id, htid]
  · simp [inject_context, hc]

theorem c5_no_partial_context_witness :
    (rustParseU64 ((getHeader
        [("x-datadog-parent-id", "12"), ("x-datadog-sampling-priority", "1")]
        DATADOG_TRACE_ID_HEADER).getD "") = none) ∧
    (empty_context.is_valid = false) ∧
    (extract_with_context
        [("x-datadog-parent-id", "12"), ("x-datadog-sampling-priority", "1")]
      = empty_context ∧ inject_context empty_context = []) :=
  ⟨by decide, by decide, c5_no_partial_context _ _ (by decide) (by decide)⟩

/-! ## Claim C6 -/

/-- Claim C6: extracting trace-id "1234" with parent-id "garbage" (and no
sampling-priority header) succeeds and yields a valid context — valid in the
claim's and spec's sense ("context still valid (trace-id present)"): the
extraction does not fail or fall back to the empty/invalid context and the
trace id is populated — whose span identifier is the invalid-identifier
sentinel and whose trace flags carry the deferred bit, distinct from the
default flags; and a malformed or absent parent-id header never makes
extraction fail when the trace-id header parses. -/
theorem c6_deferred_extraction (h : List (String × String)) (v : Nat)
    (htid : extract_trace_id ((getHeader h DATADOG_TRACE_ID_HEADER).getD "") = some v) :
    (extract_span_context
        [("x-datadog-trace-id", "1234"), ("x-datadog-parent-id", "garbage")]
      = some ⟨1234, 0, TRACE_FLAG_DEFERRED, true⟩) ∧
    (⟨1234, 0, TRACE_FLAG_DEFERRED, true⟩ : SpanContext) ≠ empty_context ∧
    (⟨1234, 0, TRACE_FLAG_DEFERRED, true⟩ : SpanContext).traceId ≠ 0 ∧
    TRACE_FLAG_DEFERRED ≠ 0 ∧
    ∃ c : SpanContext, extract_span_context h = some c ∧ c.traceId = v ∧
      c.isRemote = true := by
  refine ⟨by decide, by decide, by decide, by decide, ?_⟩
  simp only [extract_span_context, htid]
  exact ⟨_, rfl, rfl, rfl⟩

theorem c6_deferred_extraction_witness :
    (extract_trace_id ((getHeader
        [("x-datadog-trace-id", "1234"), ("x-datadog-parent-id", "garbage")]
        DATADOG_TRACE_ID_HEADER).getD "") = some 1234) ∧
    ((extract_span_context
        [("x-datadog-trace-id", "1234"), ("x-datadog-parent-id", "garbage")]
      = some ⟨1234, 0, TRACE_FLAG_DEFERRED, true⟩) ∧
    (⟨1234, 0, TRACE_FLAG_DEFERRED, true⟩ : SpanContext) ≠ empty_context ∧
    (⟨1234, 0, TRACE_FLAG_DEFERRED, true⟩ : SpanContext).traceId ≠ 0 ∧
    TRACE_FLAG_DEFERRED ≠ 0 ∧
    ∃ c : SpanContext, extract_span_context
        [("x-datadog-trace-id", "1234"), ("x-datadog-parent-id", "garbage")]
      = some c ∧ c.traceId = 1234 ∧ c.isRemote = true) :=
  ⟨by decide, c6_deferred_extraction _ 1234 (by decide)⟩

/-! ## Claim C7 -/

/-- Claim C7: the sampling-priority decode is total and exhaustive — the
resulting flags are always one of not-sampled (0), sampled, or deferred; a
value parsing as exactly −1 or 0 gives not-sampled, exactly 1 or 2 gives
sampled, and every other integer value, any parse failure, and absence of
the header (which reads as `""`) give the deferred flag, which is distinct
from not-sampled.  The flags of every successfully extracted context are
exactly this decode of its sampling-priority header. -/
theorem c7_sampling_priority_decode (s : String) :
    (sampledFlags (extract_sampling_priority s) = 0 ∨
     sampledFlags (extract_sampling_priority s) = TRACE_FLAG_SAMPLED ∨
     sampledFlags (extract_sampling_priority s) = TRACE_FLAG_DEFERRED) ∧
    (rustParseI32 s = some (-1) ∨ rustParseI32 s = some 0 →
      sampledFlags (extract_sampling_priority s) = 0) ∧
    (rustParseI32 s = some 1 ∨ rustParseI32 s = some 2 →
      sampledFlags (extract_sampling_priority s) = TRACE_FLAG_SAMPLED) ∧
    (rustParseI32 s = none →
      sampledFlags (extract_sampling_priority s) = TRACE_FLAG_DEFERRED) ∧
    (∀ i : Int, rustParseI32 s = some i → i ≠ -1 → i ≠ 0 → i ≠ 1 → i ≠ 2 →
      sampledFlags (extract_sampling_priority s) = TRACE_FLAG_DEFERRED) ∧
    TRACE_FLAG_DEFERRED ≠ 0 ∧
    (∀ (h : List (String × String)) (c : SpanContext), extract_span_context h = some c →
      c.traceFlags = sampledFlags (extract_sampling_priority
        ((getHeader h DATADOG_SAMPLING_PRIORITY_HEADER).getD ""))) := by
  refine ⟨?_, ?_, ?_, ?_, ?_, by decide, ?_⟩
  · cases hp : rustParseI32 s with
    | none => simp [extract_sampling_priority, hp, sampledFlags]
    | some i =>
      simp only [extract_sampling_priority, hp]
      split_ifs <;> simp [sampledFlags]
  · rintro (hp | hp) <;> simp [extract_sampling_priority, hp, sampledFlags]
  · rintro (hp | hp) <;> simp [extract_sampling_priority, hp, sampledFlags]
  · intro hp; simp [extract_sampling_priority, hp, sampledFlags]
  · intro i hp h1 h2 h3 h4
    simp [extract_sampling_priority, hp, h1, h2, h3, h4, sampledFlags]
  · intro h c hc
    cases htid : extract_trace_id ((getHeader h DATADOG_TRACE_ID_HEADER).getD "") with
    | none => simp [extract_span_context, htid] at hc
    | some tid =>
      simp only [extract_span_context, htid, Option.some.injEq] at hc
      rw [← hc]

theorem c7_sampling_priority_decode_witness :
    (rustParseI32 "2" = some 2) ∧
    sampledFlags (extract_sampling_priority "2") = TRACE_FLAG_SAMPLED :=
  ⟨by decide, (c7_sampling_priority_decode "2").2.2.1 (Or.inr (by decide))⟩

/-! ## Claim C8 -/

/-- Claim C8: when acquisition of the buffer lock fails, the failure is
logged via `global::handle_error` and the call is a no-op on the buffer —
`on_end` drops the span leaving the buffer unchanged, and `force_flush`
hands nothing to the exporter (empty result: no spans drained, no export
performed), returns the lock `TraceError`, and leaves the buffer
unchanged. -/
theorem c8_lock_failure_no_op (buf : List SpanData) (s : SpanData) (n : Nat) :
    on_end false buf s = (buf, ["PoisonError"]) ∧
    force_flush false n buf =
      { exported := none, buffer := buf, logged := ["PoisonError"],
        error := some "unable to obtain lock to flush" } := by
  constructor <;> simp [on_end, force_flush]

/-! ## Claim C1 -/

/-- Claim C1 counterexample: with flush threshold N = 1 and N + K = 3
buffered spans (K = 2 > 0), the first flush leaves the K = 2 newest spans
buffered as claimed, but the second flush exports only one span — the
threshold-sized prefix — not "exactly those K spans". -/
theorem c1_counterexample :
    (force_flush true 1 [mkSpan 11, mkSpan 12, mkSpan 13]).buffer
      = [mkSpan 12, mkSpan 13] ∧
    (force_flush true 1 [mkSpan 12, mkSpan 13]).exported = some [mkSpan 12] ∧
    some [mkSpan 12] ≠ some [mkSpan 12, mkSpan 13] := by decide

/-- Claim C1 (amended): with flush threshold N and a buffer of N + K spans
(K > 0), one `force_flush` exports exactly the N oldest spans in FIFO order
and leaves the K newest buffered; a second `force_flush` exports exactly
those K spans when K ≤ N, and when K > N it again exports only the
threshold-sized prefix — the N oldest of the remaining spans — leaving the
rest buffered. -/
theorem c1_threshold_flush (N K : Nat) (buf : List SpanData)
    (h1 : buf.length = N + K) (h2 : 0 < K) :
    (force_flush true N buf).exported = some (buf.take N) ∧
    (force_flush true N buf).buffer = buf.drop N ∧
    (buf.drop N).length = K ∧
    (K ≤ N →
      (force_flush true N (buf.drop N)).exported = some (buf.drop N) ∧
      (force_flush true N (buf.drop N)).buffer = []) ∧
    (N < K →
      (force_flush true N (buf.drop N)).exported = some ((buf.drop N).take N) ∧
      (force_flush true N (buf.drop N)).buffer = (buf.drop N).drop N) := by
  have hgt : buf.length > N := by omega
  have hlen : (buf.drop N).length = K := by
    rw [List.length_drop, h1]
    omega
  refine ⟨?_, ?_, hlen, ?_, ?_⟩
  · simp [force_flush, hgt]
  · simp [force_flush, hgt]
  · intro h3
    have hle : ¬((buf.drop N).length > N) := by omega
    constructor
    · simp only [force_flush, if_true]
      rw [if_neg hle, List.take_length]
    · simp only [force_flush, if_true]
      rw [if_neg hle, List.drop_length]
  · intro h3
    have hgt2 : N < buf.length - N := by omega
    constructor
    · simp [force_flush, List.length_drop, hgt2]
    · simp [force_flush, List.length_drop, hgt2]

theorem c1_threshold_flush_witness :
    ([mkSpan 11, mkSpan 12, mkSpan 13] : List SpanData).length = 2 + 1 ∧
    0 < 1 ∧
    ((force_flush true 2 [mkSpan 11, mkSpan 12, mkSpan 13]).exported
        = some ([mkSpan 11, mkSpan 12, mkSpan 13].take 2) ∧
      (force_flush true 2 [mkSpan 11, mkSpan 12, mkSpan 13]).buffer
        = [mkSpan 11, mkSpan 12, mkSpan 13].drop 2 ∧
      ([mkSpan 11, mkSpan 12, mkSpan 13].drop 2 : List SpanData).length = 1 ∧
      (1 ≤ 2 →
        (force_flush true 2 ([mkSpan 11, mkSpan 12, mkSpan 13].drop 2)).exported
          = some ([mkSpan 11, mkSpan 12, mkSpan 13].drop 2) ∧
        (force_flush true 2 ([mkSpan 11, mkSpan 12, mkSpan 13].drop 2)).buffer = []) ∧
      (2 < 1 →
        (force_flush true 2 ([mkSpan 11, mkSpan 12, mkSpan 13].drop 2)).exported
          = some (([mkSpan 11, mkSpan 12, mkSpan 13].drop 2).take 2) ∧
        (force_flush true 2 ([mkSpan 11, mkSpan 12, mkSpan 13].drop 2)).buffer
          = ([mkSpan 11, mkSpan 12, mkSpan 13].drop 2).drop 2)) :=
  ⟨by decide, by decide, c1_threshold_flush 2 1 _ (by decide) (by decide)⟩

/-! ## Grouping lemmas for `group_into_traces` -/

theorem addToGroups_keys (gs : List (Nat × List SpanData)) (s : SpanData) :
    (addToGroups gs s).map Prod.fst =
      if s.traceId ∈ gs.map Prod.fst then gs.map Prod.fst
      else gs.map Prod.fst ++ [s.traceId] := by
  induction gs with
  | nil => simp [addToGroups]
  | cons p rest ih =>
    obtain ⟨k, l⟩ := p
    by_cases hk : s.traceId = k
    · simp [addToGroups, hk]
    · simp only [addToGroups, if_neg hk, List.map_cons, ih]
      by_cases hm : s.traceId ∈ rest.map Prod.fst
      · simp [hm, hk]
      · simp [hm, hk]

theorem addToGroups_buckets (gs : List (Nat × List SpanData)) (s : SpanData)
    (h : ∀ p ∈ gs, ∀ x ∈ p.2, SpanData.traceId x = p.1) :
    ∀ p ∈ addToGroups gs s, ∀ x ∈ p.2, SpanData.traceId x = p.1 := by
  induction gs with
  | nil =>
    intro p hp x hx
    simp only [addToGroups, List.mem_singleton] at hp
    subst hp
    simp only [List.mem_singleton] at hx
    subst hx
    rfl
  | cons q rest ih =>
    obtain ⟨k, l⟩ := q
    have hq : ∀ x ∈ l, SpanData.traceId x = k := fun x hx => h (k, l) (List.mem_cons_self _ _) x hx
    have hrest : ∀ p ∈ rest, ∀ x ∈ p.2, SpanData.traceId x = p.1 :=
      fun p hp => h p (List.mem_cons_of_mem _ hp)
    by_cases hk : s.traceId = k
    · simp only [addToGroups, if_pos hk]
      intro p hp x hx
      rcases List.mem_cons.mp hp with hp | hp
      · subst hp
        rcases List.mem_append.mp hx with hx | hx
        · exact hq x hx
        · simp only [List.mem_singleton] at hx
          subst hx
          exact hk
      · exact hrest p hp x hx
    · simp only [addToGroups, if_neg hk]
      intro p hp x hx
      rcases List.mem_cons.mp hp with hp | hp
      · subst hp
        exact hq x hx
      · exact ih hrest p hp x hx

theorem addToGroups_nonnil (gs : List (Nat × List SpanData)) (s : SpanData)
    (h : ∀ p ∈ gs, p.2 ≠ []) :
    ∀ p ∈ addToGroups gs s, p.2 ≠ [] := by
  induction gs with
  | nil =>
    intro p hp
    simp only [addToGroups, List.mem_singleton] at hp
    subst hp
    simp
  | cons q rest ih =>
    obtain ⟨k, l⟩ := q
    have hrest : ∀ p ∈ rest, p.2 ≠ [] := fun p hp => h p (List.mem_cons_of_mem _ hp)
    by_cases hk : s.traceId = k
    · simp only [addToGroups, if_pos hk]
      intro p hp
      rcases List.mem_cons.mp hp with hp | hp
      · subst hp; simp
      · exact hrest p hp
    · simp only [addToGroups, if_neg hk]
      intro p hp
      rcases List.mem_cons.mp hp with hp | hp
      · subst hp
        exact h (k, l) (List.mem_cons_self _ _)
      · exact ih hrest p hp

theorem addToGroups_count (gs : List (Nat × List SpanData)) (s a : SpanData) :
    (((addToGroups gs s).map Prod.snd).flatten).count a
      = ((gs.map Prod.snd).flatten).count a + (if s = a then 1 else 0) := by
  induction gs with
  | nil =>
    simp [addToGroups, List.count_cons, List.count_nil]
  | cons q rest ih =>
    obtain ⟨k, l⟩ := q
    by_cases hk : s.traceId = k
    · simp only [addToGroups, if_pos hk, List.map_cons, List.flatten_cons,
        List.count_append, List.count_cons, List.count_nil, beq_iff_eq]
      omega
    · simp only [addToGroups, if_neg hk, List.map_cons, List.flatten_cons,
        List.count_append, ih]
      omega

theorem foldl_addToGroups_count (spans : List SpanData) :
    ∀ (gs : List (Nat × List SpanData)) (a : SpanData),
      (((spans.foldl addToGroups gs).map Prod.snd).flatten).count a
        = ((gs.map Prod.snd).flatten).count a + spans.count a := by
  induction spans with
  | nil => intro gs a; simp
  | cons s rest ih =>
    intro gs a
    rw [List.foldl_cons, ih, addToGroups_count, List.count_cons]
    simp only [beq_iff_eq]
    omega

theorem foldl_addToGroups_buckets (spans : List SpanData) :
    ∀ gs, (∀ p ∈ gs, ∀ x ∈ p.2, SpanData.traceId x = p.1) →
      ∀ p ∈ spans.foldl addToGroups gs, ∀ x ∈ p.2, SpanData.traceId x = p.1 := by
  induction spans with
  | nil => intro gs h; exact h
  | cons s rest ih =>
    intro gs h
    exact ih (addToGroups gs s) (addToGroups_buckets gs s h)

theorem foldl_addToGroups_nonnil (spans : List SpanData) :
    ∀ gs, (∀ p ∈ gs, p.2 ≠ []) → ∀ p ∈ spans.foldl addToGroups gs, p.2 ≠ [] := by
  induction spans with
  | nil => intro gs h; exact h
  | cons s rest ih =>
    intro gs h
    exact ih (addToGroups gs s) (addToGroups_nonnil gs s h)

theorem foldl_addToGroups_nodup_keys (spans : List SpanData) :
    ∀ gs, ((gs.map Prod.fst).Nodup) →
      (((spans.foldl addToGroups gs).map Prod.fst).Nodup) := by
  induction spans with
  | nil => intro gs h; exact h
  | cons s rest ih =>
    intro gs h
    refine ih (addToGroups gs s) ?_
    rw [addToGroups_keys]
    by_cases hm : s.traceId ∈ gs.map Prod.fst
    · simpa [hm] using h
    · simp only [if_neg hm]
      simp [List.nodup_append, h, hm]

theorem foldl_addToGroups_keys_mem (spans : List SpanData) :
    ∀ (gs : List (Nat × List SpanData)) (k : Nat),
      k ∈ (spans.foldl addToGroups gs).map Prod.fst ↔
        (k ∈ gs.map Prod.fst ∨ k ∈ spans.map SpanData.traceId) := by
  induction spans with
  | nil => intro gs k; simp
  | cons s rest ih =>
    intro gs k
    rw [List.foldl_cons, ih, addToGroups_keys]
    by_cases hm : s.traceId ∈ gs.map Prod.fst
    · simp only [if_pos hm, List.map_cons, List.mem_cons]
      constructor
      · rintro (h | h)
        · exact Or.inl h
        · exact Or.inr (Or.inr h)
      · rintro (h | h | h)
        · exact Or.inl h
        · subst h; exact Or.inl hm
        · exact Or.inr h
    · simp only [if_neg hm, List.mem_append, List.mem_singleton, List.map_cons,
        List.mem_cons]
      tauto

theorem group_into_traces_flatten_perm (spans : List SpanData) :
    (group_into_traces spans).flatten.Perm spans := by
  apply List.perm_iff_count.mpr
  intro a
  have h := foldl_addToGroups_count spans [] a
  simpa [group_into_traces] using h

theorem group_into_traces_groups (spans : List SpanData) :
    ∀ g ∈ group_into_traces spans, g ≠ [] ∧
      ∀ s1 ∈ g, ∀ s2 ∈ g, SpanData.traceId s1 = SpanData.traceId s2 := by
  intro g hg
  simp only [group_into_traces, List.mem_map] at hg
  obtain ⟨p, hp, hpg⟩ := hg
  have hb := foldl_addToGroups_buckets spans [] (by simp) p hp
  have hn := foldl_addToGroups_nonnil spans [] (by simp) p hp
  subst hpg
  refine ⟨hn, ?_⟩
  intro s1 h1 s2 h2
  rw [hb s1 h1, hb s2 h2]

theorem group_into_traces_length_eq (spans : List SpanData) :
    (group_into_traces spans).length = (spans.map SpanData.traceId).dedup.length := by
  have hnodup : (((spans.foldl addToGroups []).map Prod.fst)).Nodup :=
    foldl_addToGroups_nodup_keys spans [] (by simp)
  have hmem : ∀ k, k ∈ (spans.foldl addToGroups []).map Prod.fst ↔
      k ∈ spans.map SpanData.traceId := by
    intro k
    simpa using foldl_addToGroups_keys_mem spans [] k
  have hperm : ((spans.foldl addToGroups []).map Prod.fst).Perm
      (spans.map SpanData.traceId).dedup := by
    refine (hnodup.subperm ?_).antisymm (((spans.map SpanData.traceId).nodup_dedup).subperm ?_)
    · intro k hk
      exact (List.mem_dedup).mpr ((hmem k).mp hk)
    · intro k hk
      exact (hmem k).mpr ((List.mem_dedup).mp hk)
  calc (group_into_traces spans).length
      = ((spans.foldl addToGroups []).map Prod.fst).length := by
        simp [group_into_traces]
    _ = (spans.map SpanData.traceId).dedup.length := hperm.length_eq

theorem group_into_traces_pairwise (spans : List SpanData) :
    (group_into_traces spans).Pairwise
      (fun g1 g2 => ∀ s1 ∈ g1, ∀ s2 ∈ g2, SpanData.traceId s1 ≠ SpanData.traceId s2) := by
  have hnodup : (((spans.foldl addToGroups []).map Prod.fst)).Nodup :=
    foldl_addToGroups_nodup_keys spans [] (by simp)
  have hb := foldl_addToGroups_buckets spans [] (by simp)
  have hpair : (spans.foldl addToGroups []).Pairwise (fun p q => p.1 ≠ q.1) :=
    List.pairwise_map.mp hnodup
  have hpair2 : (spans.foldl addToGroups []).Pairwise
      (fun p q => ∀ s1 ∈ p.2, ∀ s2 ∈ q.2, SpanData.traceId s1 ≠ SpanData.traceId s2) := by
    refine List.Pairwise.imp_of_mem ?_ hpair
    intro p q hp hq hne s1 h1 s2 h2
    rw [hb p hp s1 h1, hb q hq s2 h2]
    exact hne
  exact List.pairwise_map.mpr hpair2

/-! ## Claim C2 -/

/-- Claim C2: for every input batch and any iteration order of the grouping
map (any permutation `o` of the computed group list), the grouping partitions
the batch by wide trace identifier: the multiset union of the groups equals
the input batch (no span duplicated or dropped), every group is non-empty
with all spans sharing one wide trace id (hence every `TraceChunk` built
from it contains only spans with equal narrowed trace ids), there is one
group per distinct wide trace identifier (count matches and distinct groups
carry distinct ids), with no guarantee on the order of groups or spans. -/
theorem c2_trace_grouping (batch : List SpanData) (o : List (List SpanData))
    (ho : o.Perm (group_into_traces batch)) (e : DatadogExporter) :
    o.flatten.Perm batch ∧
    (∀ g ∈ o, g ≠ [] ∧ ∀ s1 ∈ g, ∀ s2 ∈ g, SpanData.traceId s1 = SpanData.traceId s2) ∧
    o.length = (batch.map SpanData.traceId).dedup.length ∧
    o.Pairwise (fun g1 g2 => ∀ s1 ∈ g1, ∀ s2 ∈ g2,
      SpanData.traceId s1 ≠ SpanData.traceId s2) ∧
    (∀ ch ∈ exportChunks e o, ∀ w1 ∈ ch.spans, ∀ w2 ∈ ch.spans,
      w1.trace_id = w2.trace_id) := by
  refine ⟨?_, ?_, ?_, ?_, ?_⟩
  · exact ho.flatten.trans (group_into_traces_flatten_perm batch)
  · intro g hg
    exact group_into_traces_groups batch g (ho.subset hg)
  · rw [ho.length_eq]
    exact group_into_traces_length_eq batch
  · exact (ho.pairwise_iff
      (fun hr s1 h1 s2 h2 => Ne.symm (hr s2 h2 s1 h1))).mpr
      (group_into_traces_pairwise batch)
  · intro ch hch w1 h1 w2 h2
    simp only [exportChunks, List.mem_map] at hch
    obtain ⟨g, hg, rfl⟩ := hch
    simp only [trace_into_chunk, List.mem_map] at h1 h2
    obtain ⟨s1, hs1, rfl⟩ := h1
    obtain ⟨s2, hs2, rfl⟩ := h2
    have hsame := (group_into_traces_groups batch g (ho.subset hg)).2 s1 hs1 s2 hs2
    simp only [trace_into_dd_tracer_payload]
    rw [hsame]

theorem c2_trace_grouping_witness :
    ((group_into_traces [mkSpan 5, mkSpan 6, mkSpan 5]).Perm
        (group_into_traces [mkSpan 5, mkSpan 6, mkSpan 5])) ∧
    ((group_into_traces [mkSpan 5, mkSpan 6, mkSpan 5]).flatten.Perm
        [mkSpan 5, mkSpan 6, mkSpan 5] ∧
      (∀ g ∈ group_into_traces [mkSpan 5, mkSpan 6, mkSpan 5], g ≠ [] ∧
        ∀ s1 ∈ g, ∀ s2 ∈ g, SpanData.traceId s1 = SpanData.traceId s2) ∧
      (group_into_traces [mkSpan 5, mkSpan 6, mkSpan 5]).length
        = (([mkSpan 5, mkSpan 6, mkSpan 5].map SpanData.traceId)).dedup.length ∧
      (group_into_traces [mkSpan 5, mkSpan 6, mkSpan 5]).Pairwise
        (fun g1 g2 => ∀ s1 ∈ g1, ∀ s2 ∈ g2,
          SpanData.traceId s1 ≠ SpanData.traceId s2) ∧
      (∀ ch ∈ exportChunks cfg0 (group_into_traces [mkSpan 5, mkSpan 6, mkSpan 5]),
        ∀ w1 ∈ ch.spans, ∀ w2 ∈ ch.spans, w1.trace_id = w2.trace_id)) :=
  ⟨List.Perm.refl _, c2_trace_grouping _ _ (List.Perm.refl _) cfg0⟩

/-! ## Sorted-map lemmas for the `BTreeMap` model -/

theorem btreeInsert_keys_mem (m : List (String × String)) (k v : String) :
    ∀ k', k' ∈ (btreeInsert m k v).map Prod.fst → k' = k ∨ k' ∈ m.map Prod.fst := by
  induction m with
  | nil => intro k' h; simp [btreeInsert] at h; exact Or.inl h
  | cons p rest ih =>
    obtain ⟨k0, v0⟩ := p
    intro k' h
    by_cases h1 : k < k0
    · simp only [btreeInsert, if_pos h1, List.map_cons, List.mem_cons] at h
      rcases h with h | h | h
      · exact Or.inl h
      · exact Or.inr (by simp [h])
      · exact Or.inr (by simp [h])
    · by_cases h2 : k = k0
      · simp only [btreeInsert, if_neg h1, if_pos h2, List.map_cons, List.mem_cons] at h
        rcases h with h | h
        · exact Or.inl h
        · exact Or.inr (by simp [h])
      · simp only [btreeInsert, if_neg h1, if_neg h2, List.map_cons, List.mem_cons] at h
        rcases h with h | h
        · exact Or.inr (by simp [h])
        · rcases ih k' h with h | h
          · exact Or.inl h
          · exact Or.inr (by simp [h])

theorem btreeInsert_sorted (m : List (String × String)) (k v : String)
    (h : (m.map Prod.fst).Sorted (· < ·)) :
    ((btreeInsert m k v).map Prod.fst).Sorted (· < ·) := by
  induction m with
  | nil => simp [btreeInsert]
  | cons p rest ih =>
    obtain ⟨k0, v0⟩ := p
    simp only [List.map_cons, List.sorted_cons] at h
    obtain ⟨hall, hrest⟩ := h
    by_cases h1 : k < k0
    · simp only [btreeInsert, if_pos h1, List.map_cons, List.sorted_cons]
      refine ⟨?_, hall, hrest⟩
      intro b hb
      rcases List.mem_cons.mp hb with hb | hb
      · subst hb; exact h1
      · exact lt_trans h1 (hall b hb)
    · by_cases h2 : k = k0
      · simp only [btreeInsert, if_neg h1, if_pos h2, List.map_cons, List.sorted_cons]
        subst h2
        exact ⟨hall, hrest⟩
      · have h3 : k0 < k := lt_of_le_of_ne (le_of_not_lt h1) (fun e => h2 e.symm)
        simp only [btreeInsert, if_neg h1, if_neg h2, List.map_cons, List.sorted_cons]
        refine ⟨?_, ih hrest⟩
        intro b hb
        rcases btreeInsert_keys_mem rest k v b hb with hb | hb
        · subst hb; exact h3
        · exact hall b hb

theorem collectBTreeMap_sorted (attrs : List (String × String)) :
    ((collectBTreeMap attrs).map Prod.fst).Sorted (· < ·) := by
  have general : ∀ (l : List (String × String)) (m : List (String × String)),
      (m.map Prod.fst).Sorted (· < ·) →
      ((l.foldl (fun acc kv => btreeInsert acc kv.1 kv.2) m).map Prod.fst).Sorted (· < ·) := by
    intro l
    induction l with
    | nil => intro m hm; exact hm
    | cons kv rest ih =>
      intro m hm
      exact ih (btreeInsert m kv.1 kv.2) (btreeInsert_sorted m kv.1 kv.2 hm)
  exact general attrs [] (by simp)

theorem dedup_length_le_one {l : List Nat} (a : Nat) (h : ∀ x ∈ l, x = a) :
    l.dedup.length ≤ 1 := by
  have hsub : l.dedup ⊆ [a] := by
    intro x hx
    have := h x (List.mem_dedup.mp hx)
    simp [this]
  have hle := (l.nodup_dedup.subperm hsub).length_le
  simpa using hle

/-! ## Claim C9 -/

/-- The two-trace batch exhibiting the chunk-order dependence. -/
def batch9 : List SpanData := [mkSpan (2 ^ 64), mkSpan (2 ^ 65)]

set_option maxRecDepth 100000 in
/-- Claim C9 counterexample: the chunk list follows the iteration order of
the `HashMap` built by `into_group_map_by`, which is randomized per map
instance and not a function of the input batch.  Reversing the group order —
an admissible iteration order, being a permutation of the groups — changes
the serialized bytes for a batch holding two distinct trace ids, so two runs
of export on identical input need not produce byte-identical payloads. -/
theorem c9_counterexample :
    ((group_into_traces batch9).reverse.Perm (group_into_traces batch9)) ∧
    encode_to_vec (exportPayload cfg0 (group_into_traces batch9))
      ≠ encode_to_vec (exportPayload cfg0 ((group_into_traces batch9).reverse)) :=
  ⟨List.reverse_perm _, by decide⟩

/-- Claim C9 (amended): the payload encoding is deterministic up to the order
of the `TraceChunk`s inside the single `TracerPayload`: for any two
iteration orders of the grouping map (any two permutations of the group
list), the built payloads agree everywhere except that their chunk lists are
permutations of each other; every `meta` map inside is in sorted key order;
and when the batch's spans all share one wide trace id (at most one chunk)
the serialized bytes are identical. -/
theorem c9_deterministic_up_to_chunk_order (e : DatadogExporter)
    (batch : List SpanData) (o1 o2 : List (List SpanData))
    (h1 : o1.Perm (group_into_traces batch)) (h2 : o2.Perm (group_into_traces batch)) :
    (exportChunks e o1).Perm (exportChunks e o2) ∧
    exportPayload e o1 = e.trace_build [e.trace_into_tracer (exportChunks e o1)] ∧
    exportPayload e o2 = e.trace_build [e.trace_into_tracer (exportChunks e o2)] ∧
    (∀ ch ∈ exportChunks e o1, ∀ sp ∈ ch.spans, (sp.meta.map Prod.fst).Sorted (· < ·)) ∧
    ((∀ s1 ∈ batch, ∀ s2 ∈ batch, SpanData.traceId s1 = SpanData.traceId s2) →
      encode_to_vec (exportPayload e o1) = encode_to_vec (exportPayload e o2)) := by
  refine ⟨(h1.trans h2.symm).map _, rfl, rfl, ?_, ?_⟩
  · intro ch hch sp hsp
    simp only [exportChunks, List.mem_map] at hch
    obtain ⟨g, hg, rfl⟩ := hch
    simp only [trace_into_chunk, List.mem_map] at hsp
    obtain ⟨s, hs, rfl⟩ := hsp
    simpa [trace_into_dd_tracer_payload] using collectBTreeMap_sorted s.attributes
  · intro hall
    have ho12 : o1 = o2 := by
      have hle1 : (group_into_traces batch).length ≤ 1 := by
        rw [group_into_traces_length_eq]
        cases batch with
        | nil => simp
        | cons b rest =>
          apply dedup_length_le_one b.traceId
          intro x hx
          simp only [List.mem_map] at hx
          obtain ⟨s, hs, rfl⟩ := hx
          exact hall s hs b (List.mem_cons_self _ _)
      rcases hG : group_into_traces batch with _ | ⟨g, grest⟩
      · rw [hG] at h1 h2
        rw [h1.eq_nil, h2.eq_nil]
      · rw [hG] at hle1 h1 h2
        have hrest : grest = [] := by
          simp only [List.length_cons] at hle1
          exact List.length_eq_zero.mp (by omega)
        subst hrest
        rw [List.perm_singleton.mp h1, List.perm_singleton.mp h2]
    rw [ho12]

theorem c9_deterministic_up_to_chunk_order_witness :
    ((group_into_traces batch9).reverse.Perm (group_into_traces batch9)) ∧
    ((group_into_traces batch9).Perm (group_into_traces batch9)) ∧
    ((exportChunks cfg0 (group_into_traces batch9)).Perm
        (exportChunks cfg0 ((group_into_traces batch9).reverse)) ∧
      exportPayload cfg0 (group_into_traces batch9)
        = cfg0.trace_build [cfg0.trace_into_tracer
            (exportChunks cfg0 (group_into_traces batch9))] ∧
      exportPayload cfg0 ((group_into_traces batch9).reverse)
        = cfg0.trace_build [cfg0.trace_into_tracer
            (exportChunks cfg0 ((group_into_traces batch9).reverse))] ∧
      (∀ ch ∈ exportChunks cfg0 (group_into_traces batch9), ∀ sp ∈ ch.spans,
        (sp.meta.map Prod.fst).Sorted (· < ·)) ∧
      ((∀ s1 ∈ batch9, ∀ s2 ∈ batch9, SpanData.traceId s1 = SpanData.traceId s2) →
        encode_to_vec (exportPayload cfg0 (group_into_traces batch9))
          = encode_to_vec (exportPayload cfg0 ((group_into_traces batch9).reverse)))) :=
  ⟨List.reverse_perm _, List.Perm.refl _,
    c9_deterministic_up_to_chunk_order cfg0 batch9 _ _
      (List.Perm.refl _) (List.reverse_perm _)⟩

/-! ## Claim C10 -/

/-- Claim C10: exporting an empty span batch is not short-circuited — it
still builds and sends exactly one HTTP POST request, whose payload contains
exactly one `TracerPayload` with zero chunks, so an empty flush costs one
network round-trip.  `order` is the grouping map's iteration order; on the
empty batch the map is empty, so any admissible order yields the empty group
list. -/
theorem c10_empty_batch_request (e : DatadogExporter)
    (order : List (List SpanData) → List (List SpanData)) (hord : order [] = []) :
    exportSpans e order [] =
      [{ method := "POST"
         uri := e.request_url
         headers := [("content-type", "application/x-protobuf"),
                     ("X-Datadog-Reported-Languages", "rust"),
                     ("DD-Api-Key", e.key)]
         body := encode_to_vec (exportPayload e []) }] ∧
    (exportSpans e order []).length = 1 ∧
    (exportPayload e []).tracer_payloads.length = 1 ∧
    ∀ tp ∈ (exportPayload e []).tracer_payloads, tp.chunks = [] := by
  have hgroup : group_into_traces [] = [] := rfl
  refine ⟨?_, ?_, ?_, ?_⟩
  · simp [exportSpans, hgroup, hord]
  · simp [exportSpans]
  · simp [exportPayload, DatadogExporter.trace_build]
  · intro tp htp
    simp only [exportPayload, DatadogExporter.trace_build, List.mem_singleton] at htp
    subst htp
    simp [DatadogExporter.trace_into_tracer, exportChunks]

theorem c10_empty_batch_request_witness :
    (id ([] : List (List SpanData)) = []) ∧
    (exportSpans cfg0 id [] =
      [{ method := "POST"
         uri := cfg0.request_url
         headers := [("content-type", "application/x-protobuf"),
                     ("X-Datadog-Reported-Languages", "rust"),
                     ("DD-Api-Key", cfg0.key)]
         body := encode_to_vec (exportPayload cfg0 []) }] ∧
    (exportSpans cfg0 id []).length = 1 ∧
    (exportPayload cfg0 []).tracer_payloads.length = 1 ∧
    ∀ tp ∈ (exportPayload cfg0 []).tracer_payloads, tp.chunks = []) :=
  ⟨rfl, c10_empty_batch_request cfg0 id rfl⟩
